import Mathlib

/-!
Verification of the cgocopy layout-metadata model against its C source.

The embedding follows the source files:
* `src/native/metadata_registry.c` — the struct registry (a singly linked
  list of nodes, prepend-on-register, linear scan on lookup);
* `src/native/cgocopy_metadata.h` — the descriptor model and registration
  macros (`CGOCOPY_INTERNAL_FIELD_INIT`, `CGOCOPY_FIELD_ARRAY`, ...);
* `src/native/arch_info.c` — the architecture probe (`getArchitectureInfo`,
  `calculateAlignment`);
* `src/pkg/cgocopy2/native2/cgocopy_macros.h` — the cgocopy2 macro family
  (`CGOCOPY_FIELD`, `CGOCOPY_ARRAY_FIELD`).

C pointers that may be NULL are embedded as `Option`; the registry's
linked list (head pointer plus `next` chains) is embedded as a Lean
`List` of nodes in traversal order; `size_t` values are natural numbers,
with arithmetic reduced modulo `2 ^ 64` exactly where the C code can wrap.
The registration macros read their `offset`/`size`/struct-`size` values
from the compiler via `offsetof`/`sizeof`; those are embedded through the
standard C struct layout algorithm (`layoutOffsets`, `cStructSize` below):
each field is placed at the next multiple of its alignment, and the struct
size is the end of the last field rounded up to the struct's alignment.
-/

namespace Cgocopy

/-- Field-kind taxonomy from `cgocopy_field_kind` in `cgocopy_metadata.h`. -/
inductive cgocopy_field_kind where
  | primitive_kind
  | pointer_kind
  | string_kind
  | array_kind
  | struct_kind
  deriving DecidableEq, Repr

/-- Field descriptor, from `cgocopy_field_info` in `cgocopy_metadata.h`.
The `const char *` members are `Option String` since the pointers may be NULL. -/
structure cgocopy_field_info where
  offset : Nat
  size : Nat
  type_name : Option String
  kind : cgocopy_field_kind
  elem_type : Option String
  elem_count : Nat
  is_string : Bool
  deriving DecidableEq, Repr

/-- Struct descriptor, from `cgocopy_struct_info` in `cgocopy_metadata.h`.
The `fields` pointer-plus-`field_count` pair is embedded as a Lean list. -/
structure cgocopy_struct_info where
  name : Option String
  size : Nat
  alignment : Nat
  field_count : Nat
  fields : List cgocopy_field_info
  deriving DecidableEq, Repr

/-- Registry node, from `cgocopy_struct_registry_node` in `cgocopy_metadata.h`.
The `next` pointer is represented by list structure, so only the (possibly
NULL) `info` pointer remains. -/
structure cgocopy_struct_registry_node where
  info : Option cgocopy_struct_info
  deriving DecidableEq, Repr

/-- The registry state: the linked list hanging off `cgocopy_registry_head`
in `metadata_registry.c`, in traversal order (head first). -/
def Registry := List cgocopy_struct_registry_node

/-- Embedding of `cgocopy_registry_add` from `metadata_registry.c`: a NULL
node is ignored, otherwise the node is prepended at the head. -/
def cgocopy_registry_add (node : Option cgocopy_struct_registry_node)
    (reg : List cgocopy_struct_registry_node) : List cgocopy_struct_registry_node :=
  match node with
  | none => reg
  | some n => n :: reg

/-- The cursor loop of `cgocopy_lookup_struct_info`: walk the list, return
the first `info` that is non-NULL, has a non-NULL `name`, and whose name
compares equal (`strcmp == 0`) to the query. -/
def lookupLoop (q : String) : List cgocopy_struct_registry_node → Option cgocopy_struct_info
  | [] => none
  | cursor :: rest =>
    match cursor.info with
    | some info =>
      match info.name with
      | some n => if n = q then some info else lookupLoop q rest
      | none => lookupLoop q rest
    | none => lookupLoop q rest

/-- Embedding of `cgocopy_lookup_struct_info` from `metadata_registry.c`:
a NULL query returns NULL immediately, otherwise the list is scanned. -/
def cgocopy_lookup_struct_info (name : Option String)
    (reg : List cgocopy_struct_registry_node) : Option cgocopy_struct_info :=
  match name with
  | none => none
  | some q => lookupLoop q reg

/-! Concrete descriptors mirroring the test structs of
`src/pkg/cgocopy/integration/native/structs.h` on an LP64 platform
(4-byte `int`/`float`, 8-byte pointers/`double`). They serve as concrete
registry states for the witness theorems. -/

/-- Descriptor for the `SimplePerson` test struct (`int id; double score; _Bool active;`). -/
def simplePersonInfo : cgocopy_struct_info :=
  { name := some "SimplePerson"
    size := 24
    alignment := 8
    field_count := 3
    fields :=
      [ { offset := 0, size := 4, type_name := some "int",
          kind := .primitive_kind, elem_type := none, elem_count := 0, is_string := false }
      , { offset := 8, size := 8, type_name := some "double",
          kind := .primitive_kind, elem_type := none, elem_count := 0, is_string := false }
      , { offset := 16, size := 1, type_name := some "_Bool",
          kind := .primitive_kind, elem_type := none, elem_count := 0, is_string := false } ] }

/-- Descriptor for the `User` test struct (`int user_id; char* username; char* email;`). -/
def userInfo : cgocopy_struct_info :=
  { name := some "User"
    size := 24
    alignment := 8
    field_count := 3
    fields :=
      [ { offset := 0, size := 4, type_name := some "int",
          kind := .primitive_kind, elem_type := none, elem_count := 0, is_string := false }
      , { offset := 8, size := 8, type_name := some "char*",
          kind := .string_kind, elem_type := none, elem_count := 0, is_string := true }
      , { offset := 16, size := 8, type_name := some "char*",
          kind := .string_kind, elem_type := none, elem_count := 0, is_string := true } ] }

/-- A second descriptor also named `User`, with a different shape, used to
exercise duplicate registration. -/
def userInfoV2 : cgocopy_struct_info :=
  { name := some "User"
    size := 32
    alignment := 8
    field_count := 1
    fields :=
      [ { offset := 0, size := 4, type_name := some "int",
          kind := .primitive_kind, elem_type := none, elem_count := 0, is_string := false } ] }

/-! The C struct layout algorithm. The registration macros read `offset`
and `size` from the compiler (`offsetof(struct_type, field_name)`,
`sizeof(((struct_type *)0)->field_name)`, `sizeof(struct_type)`); the
definitions below embed the compiler's layout: each field goes to the
next multiple of its alignment after the previous field's end, and the
struct size is the final end rounded up to the maximal field alignment. -/

/-- A field as the compiler sees it: its alignment requirement and size. -/
structure CField where
  align : Nat
  size : Nat
  deriving DecidableEq, Repr

/-- Round `off` up to the next multiple of `a` (for `1 ≤ a`). -/
def alignUp (off a : Nat) : Nat := (off + a - 1) / a * a

/-- The compiler-assigned offsets (`offsetof`) of a field list laid out
starting at `off`: each field is placed at `alignUp` of the running end. -/
def layoutOffsets : Nat → List CField → List Nat
  | _, [] => []
  | off, f :: fs => alignUp off f.align :: layoutOffsets (alignUp off f.align + f.size) fs

/-- The end (offset just past the last field) of the layout started at `off`. -/
def layoutEnd : Nat → List CField → Nat
  | off, [] => off
  | off, f :: fs => layoutEnd (alignUp off f.align + f.size) fs

/-- The struct's alignment: the maximum field alignment (at least 1). -/
def maxAlign : List CField → Nat
  | [] => 1
  | f :: fs => max f.align (maxAlign fs)

/-- Embedding of `sizeof(struct_type)`: the layout end rounded up to the
struct's alignment (trailing padding). -/
def cStructSize (fs : List CField) : Nat := alignUp (layoutEnd 0 fs) (maxAlign fs)

/-- Embedding of `offsetof(struct_type, field_name)` for the `i`-th declared field. -/
def fieldOffset (fs : List CField) (i : Nat) : Nat := (layoutOffsets 0 fs).getD i 0

/-- Embedding of `sizeof(((struct_type *)0)->field_name)` for the `i`-th declared field. -/
def fieldSize (fs : List CField) (i : Nat) : Nat := (fs.getD i ⟨1, 0⟩).size

/-- The invariant claimed for macro-produced descriptors: every field ends
inside the struct, fields taken in (offset-sorted) declaration order do not
overlap, and offsets are non-decreasing in declaration order (so declaration
order is an offset-sorted order). -/
def descriptorInvariant (fs : List CField) : Prop :=
  (∀ i, i < fs.length → fieldOffset fs i + fieldSize fs i ≤ cStructSize fs) ∧
  (∀ i j, i < j → j < fs.length → fieldOffset fs i + fieldSize fs i ≤ fieldOffset fs j) ∧
  (∀ i j, i ≤ j → j < fs.length → fieldOffset fs i ≤ fieldOffset fs j)

/-- The `Student` test struct's fields on LP64, in declaration order:
`int student_id; char* name; int grades[5]; float scores[3];`. -/
def studentCFields : List CField :=
  [⟨4, 4⟩, ⟨8, 8⟩, ⟨4, 20⟩, ⟨4, 12⟩]

/-! The array-field registration macros. The C macro computes
`size = sizeof(field)`, which for an array member is, by C semantics,
`elem_count * sizeof(elem_type)`; cgocopy2's `CGOCOPY_ARRAY_FIELD`
additionally computes `array_len = sizeof(field) / sizeof(elem_type)`. -/

/-- Embedding of `CGOCOPY_FIELD_ARRAY` from `cgocopy_metadata.h`:
`kind = CGOCOPY_FIELD_ARRAY_KIND`, `elem_type` and `type_name` both the
stringified element type, `elem_count` as passed, `size = sizeof(field)`. -/
def CGOCOPY_FIELD_ARRAY (offset : Nat) (elemType : String)
    (elemSize elemCount : Nat) : cgocopy_field_info :=
  { offset := offset
    size := elemCount * elemSize
    type_name := some elemType
    kind := .array_kind
    elem_type := some elemType
    elem_count := elemCount
    is_string := false }

/-- Field descriptor of the cgocopy2 macro family, from `cgocopy_field_info`
in `cgocopy_macros.h` (`is_pointer`/`is_array` are C `int` flags). -/
structure cgocopy2_field_info where
  name : String
  type : String
  offset : Nat
  size : Nat
  is_pointer : Nat
  is_array : Nat
  array_len : Nat
  deriving DecidableEq, Repr

/-- Embedding of `CGOCOPY_ARRAY_FIELD` from `cgocopy_macros.h`:
`type = #elemtype "[]"`, `size = sizeof(field)`, `is_array = 1`,
`array_len = sizeof(field) / sizeof(elemtype)`. -/
def CGOCOPY_ARRAY_FIELD (fieldName : String) (offset : Nat) (elemType : String)
    (elemSize elemCount : Nat) : cgocopy2_field_info :=
  { name := fieldName
    type := elemType ++ "[]"
    offset := offset
    size := elemCount * elemSize
    is_pointer := 0
    is_array := 1
    array_len := elemCount * elemSize / elemSize }

/-! The architecture probe, from `arch_info.c`. -/

/-- Little-endian byte decomposition of `n` into `k` bytes (least
significant first): the memory image of an integer store on a
little-endian platform. -/
def toBytesLE : Nat → Nat → List Nat
  | _, 0 => []
  | n, k + 1 => n % 256 :: toBytesLE (n / 256) k

/-- The memory image of a 4-byte integer store of `n`: least-significant
byte first on a little-endian platform, most-significant first otherwise. -/
def unionBytes (littleEndian : Bool) (n : Nat) : List Nat :=
  if littleEndian then toBytesLE n 4 else (toBytesLE n 4).reverse

/-- Embedding of the union read `test.c[0]` in `getArchitectureInfo` after
`test.i = 0x01020304`: the first byte of the store's memory image. -/
def endianTestFirstByte (littleEndian : Bool) : Nat :=
  (unionBytes littleEndian 0x01020304).headD 0

/-- Embedding of `info.is_little_endian = (test.c[0] == 0x04) ? 1 : 0`. -/
def endianFlag (littleEndian : Bool) : Nat :=
  if endianTestFirstByte littleEndian = 0x04 then 1 else 0

/-- Snapshot type `ArchitectureInfo` from `arch_info.c`. -/
structure ArchitectureInfo where
  int8_size : Nat
  int16_size : Nat
  int32_size : Nat
  int64_size : Nat
  uint8_size : Nat
  uint16_size : Nat
  uint32_size : Nat
  uint64_size : Nat
  float_size : Nat
  double_size : Nat
  pointer_size : Nat
  sizet_size : Nat
  int8_offset : Nat
  int16_offset : Nat
  int32_offset : Nat
  int64_offset : Nat
  uint8_offset : Nat
  uint16_offset : Nat
  uint32_offset : Nat
  uint64_offset : Nat
  float_offset : Nat
  double_offset : Nat
  pointer_offset : Nat
  charptr_offset : Nat
  sizet_offset : Nat
  test_struct_size : Nat
  is_64bit : Nat
  is_little_endian : Nat
  deriving DecidableEq, Repr

/-- The compile-time constants `getArchitectureInfo` reads: the `sizeof`
of each primitive, the `offsetof` of each `AlignmentTestStruct` member,
`sizeof(AlignmentTestStruct)`, and the platform byte order. -/
structure CPlatform where
  sizeof_int8 : Nat
  sizeof_int16 : Nat
  sizeof_int32 : Nat
  sizeof_int64 : Nat
  sizeof_uint8 : Nat
  sizeof_uint16 : Nat
  sizeof_uint32 : Nat
  sizeof_uint64 : Nat
  sizeof_float : Nat
  sizeof_double : Nat
  sizeof_pointer : Nat
  sizeof_sizet : Nat
  offsetof_i8 : Nat
  offsetof_i16 : Nat
  offsetof_i32 : Nat
  offsetof_i64 : Nat
  offsetof_u8 : Nat
  offsetof_u16 : Nat
  offsetof_u32 : Nat
  offsetof_u64 : Nat
  offsetof_f32 : Nat
  offsetof_f64 : Nat
  offsetof_ptr : Nat
  offsetof_charptr : Nat
  offsetof_sizet : Nat
  sizeof_test_struct : Nat
  littleEndian : Bool
  deriving DecidableEq, Repr

/-- Embedding of `getArchitectureInfo` from `arch_info.c`. The C function
writes only its local `info`; to make that observable the embedding passes
the registry state (the program's only global mutable state) through
explicitly and returns it alongside the snapshot. -/
def getArchitectureInfo (p : CPlatform) (reg : List cgocopy_struct_registry_node) :
    ArchitectureInfo × List cgocopy_struct_registry_node :=
  ({ int8_size := p.sizeof_int8
     int16_size := p.sizeof_int16
     int32_size := p.sizeof_int32
     int64_size := p.sizeof_int64
     uint8_size := p.sizeof_uint8
     uint16_size := p.sizeof_uint16
     uint32_size := p.sizeof_uint32
     uint64_size := p.sizeof_uint64
     float_size := p.sizeof_float
     double_size := p.sizeof_double
     pointer_size := p.sizeof_pointer
     sizet_size := p.sizeof_sizet
     int8_offset := p.offsetof_i8
     int16_offset := p.offsetof_i16
     int32_offset := p.offsetof_i32
     int64_offset := p.offsetof_i64
     uint8_offset := p.offsetof_u8
     uint16_offset := p.offsetof_u16
     uint32_offset := p.offsetof_u32
     uint64_offset := p.offsetof_u64
     float_offset := p.offsetof_f32
     double_offset := p.offsetof_f64
     pointer_offset := p.offsetof_ptr
     charptr_offset := p.offsetof_charptr
     sizet_offset := p.offsetof_sizet
     test_struct_size := p.sizeof_test_struct
     is_64bit := if p.sizeof_pointer = 8 then 1 else 0
     is_little_endian := endianFlag p.littleEndian }, reg)

/-- Unsigned `size_t` subtraction: reduced modulo `2 ^ 64`, as C computes it. -/
def sizetSub (a b : Nat) : Nat := (a + (2 ^ 64 - b % 2 ^ 64)) % 2 ^ 64

/-- Embedding of `calculateAlignment` from `arch_info.c`: returns 1 when
the current offset equals the previous end, otherwise the `size_t`
difference `current_offset - prev_end`. -/
def calculateAlignment (prev_end current_offset : Nat) : Nat :=
  if current_offset = prev_end then 1
  else sizetSub current_offset prev_end

/-! Theorems. -/

/-- Any descriptor returned by the lookup loop carries exactly the queried name. -/
theorem lookupLoop_name_eq (q : String) :
    ∀ (reg : List cgocopy_struct_registry_node) (info : cgocopy_struct_info),
      lookupLoop q reg = some info → info.name = some q := by
  intro reg
  induction reg with
  | nil => intro info h; simp [lookupLoop] at h
  | cons cursor rest ih =>
    intro info h
    unfold lookupLoop at h
    cases hinfo : cursor.info with
    | none => simp only [hinfo] at h; exact ih info h
    | some i =>
      simp only [hinfo] at h
      cases hname : i.name with
      | none => simp only [hname] at h; exact ih info h
      | some n =>
        simp only [hname] at h
        by_cases heq : n = q
        · simp only [if_pos heq] at h
          obtain rfl : i = info := Option.some.inj h
          rw [hname, heq]
        · simp only [if_neg heq] at h
          exact ih info h

/-- If some node in the list holds a descriptor named `q`, the lookup loop
finds one (not necessarily that one, but some descriptor). -/
theorem lookupLoop_isSome (q : String) :
    ∀ (reg : List cgocopy_struct_registry_node),
      (∃ node ∈ reg, ∃ info, node.info = some info ∧ info.name = some q) →
      ∃ info, lookupLoop q reg = some info := by
  intro reg
  induction reg with
  | nil => rintro ⟨node, hmem, _⟩; simp at hmem
  | cons cursor rest ih =>
    rintro ⟨node, hmem, info, hinfo, hname⟩
    rcases List.mem_cons.mp hmem with hhead | htail
    · subst hhead
      refine ⟨info, ?_⟩
      unfold lookupLoop
      simp [hinfo, hname]
    · rcases ih ⟨node, htail, info, hinfo, hname⟩ with ⟨found, hfound⟩
      unfold lookupLoop
      cases hci : cursor.info with
      | none => exact ⟨found, hfound⟩
      | some ci =>
        simp only
        cases hcn : ci.name with
        | none => exact ⟨found, hfound⟩
        | some cn =>
          by_cases heq : cn = q
          · exact ⟨ci, by simp only [if_pos heq]⟩
          · exact ⟨found, by simp only [if_neg heq]; exact hfound⟩

/-- C1: for every registry state, looking up a name under which some node is
registered returns a descriptor whose `name` field equals the queried name. -/
theorem lookup_registered_name_matches (reg : List cgocopy_struct_registry_node) (q : String)
    (h : ∃ node ∈ reg, ∃ info, node.info = some info ∧ info.name = some q) :
    ∃ info, cgocopy_lookup_struct_info (some q) reg = some info ∧ info.name = some q := by
  rcases lookupLoop_isSome q reg h with ⟨info, hinfo⟩
  exact ⟨info, hinfo, lookupLoop_name_eq q reg info hinfo⟩

/-- Witness for C1: `SimplePerson` is registered in a concrete registry and
its lookup returns a descriptor named `SimplePerson`. -/
theorem lookup_registered_name_matches_witness :
    (∃ node ∈ [cgocopy_struct_registry_node.mk (some simplePersonInfo)],
        ∃ info, node.info = some info ∧ info.name = some "SimplePerson") ∧
    (∃ info,
        cgocopy_lookup_struct_info (some "SimplePerson")
          [cgocopy_struct_registry_node.mk (some simplePersonInfo)] = some info ∧
        info.name = some "SimplePerson") :=
  ⟨⟨cgocopy_struct_registry_node.mk (some simplePersonInfo), by simp,
      simplePersonInfo, rfl, rfl⟩,
    lookup_registered_name_matches _ "SimplePerson"
      ⟨cgocopy_struct_registry_node.mk (some simplePersonInfo), by simp,
        simplePersonInfo, rfl, rfl⟩⟩

/-- C3: registration prepends at the head, so of two descriptors registered
under the same name the most recently registered one is returned by lookup. -/
theorem register_prepends_and_shadows
    (reg : List cgocopy_struct_registry_node)
    (node1 node2 : cgocopy_struct_registry_node)
    (info1 info2 : cgocopy_struct_info) (n : String)
    (_h1 : node1.info = some info1) (_hn1 : info1.name = some n)
    (h2 : node2.info = some info2) (hn2 : info2.name = some n) :
    cgocopy_registry_add (some node2) (cgocopy_registry_add (some node1) reg) =
        node2 :: node1 :: reg ∧
    cgocopy_lookup_struct_info (some n)
        (cgocopy_registry_add (some node2) (cgocopy_registry_add (some node1) reg)) =
      some info2 := by
  refine ⟨rfl, ?_⟩
  unfold cgocopy_registry_add cgocopy_lookup_struct_info lookupLoop
  simp [h2, hn2]

/-- Witness for C3: registering `userInfo` then `userInfoV2` (both named
`User`) makes lookup of `User` return `userInfoV2`. -/
theorem register_prepends_and_shadows_witness :
    cgocopy_registry_add (some (cgocopy_struct_registry_node.mk (some userInfoV2)))
        (cgocopy_registry_add (some (cgocopy_struct_registry_node.mk (some userInfo))) []) =
      [cgocopy_struct_registry_node.mk (some userInfoV2),
        cgocopy_struct_registry_node.mk (some userInfo)] ∧
    cgocopy_lookup_struct_info (some "User")
        (cgocopy_registry_add (some (cgocopy_struct_registry_node.mk (some userInfoV2)))
          (cgocopy_registry_add (some (cgocopy_struct_registry_node.mk (some userInfo))) [])) =
      some userInfoV2 :=
  register_prepends_and_shadows [] _ _ userInfo userInfoV2 "User" rfl rfl rfl rfl

/-- C4: lookup of a name no registered node carries returns NULL, and lookup
with a NULL name returns NULL; neither case can abort (the function is total). -/
theorem lookup_missing_returns_none (reg : List cgocopy_struct_registry_node) (q : String)
    (h : ∀ node ∈ reg, ∀ info, node.info = some info → info.name ≠ some q) :
    cgocopy_lookup_struct_info (some q) reg = none ∧
    cgocopy_lookup_struct_info none reg = none := by
  refine ⟨?_, rfl⟩
  unfold cgocopy_lookup_struct_info
  induction reg with
  | nil => rfl
  | cons cursor rest ih =>
    unfold lookupLoop
    have hrest : ∀ node ∈ rest, ∀ info, node.info = some info → info.name ≠ some q :=
      fun node hmem => h node (List.mem_cons_of_mem _ hmem)
    cases hinfo : cursor.info with
    | none => exact ih hrest
    | some info =>
      simp only
      cases hname : info.name with
      | none => exact ih hrest
      | some n =>
        have hne : n ≠ q := by
          intro hcontra
          exact h cursor (List.mem_cons_self _ _) info hinfo (by rw [hname, hcontra])
        simp only [if_neg hne]
        exact ih hrest

/-- Witness for C4: in a registry holding only `SimplePerson`, looking up
`DoesNotExist` returns NULL, as does a NULL-name lookup. -/
theorem lookup_missing_returns_none_witness :
    (∀ node ∈ [cgocopy_struct_registry_node.mk (some simplePersonInfo)],
        ∀ info, node.info = some info → info.name ≠ some "DoesNotExist") ∧
    (cgocopy_lookup_struct_info (some "DoesNotExist")
        [cgocopy_struct_registry_node.mk (some simplePersonInfo)] = none ∧
      cgocopy_lookup_struct_info none
        [cgocopy_struct_registry_node.mk (some simplePersonInfo)] = none) :=
  ⟨by decide, lookup_missing_returns_none _ "DoesNotExist" (by decide)⟩

/-- C5: registering a NULL node reference is a silent no-op: the registry
state is unchanged, hence every subsequent lookup is unchanged. -/
theorem register_null_is_noop (reg : List cgocopy_struct_registry_node) :
    cgocopy_registry_add none reg = reg ∧
    ∀ name, cgocopy_lookup_struct_info name (cgocopy_registry_add none reg) =
      cgocopy_lookup_struct_info name reg :=
  ⟨rfl, fun _ => rfl⟩

/-- C10: registering a node whose descriptor is named `n` leaves the lookup
result of every query different from `n` (including the NULL query) unchanged. -/
theorem register_preserves_other_lookups
    (reg : List cgocopy_struct_registry_node) (node : cgocopy_struct_registry_node)
    (info : cgocopy_struct_info) (n : String) (q : Option String)
    (hinfo : node.info = some info) (hname : info.name = some n) (hq : q ≠ some n) :
    cgocopy_lookup_struct_info q (cgocopy_registry_add (some node) reg) =
      cgocopy_lookup_struct_info q reg := by
  cases q with
  | none => rfl
  | some s =>
    have hs : n ≠ s := by
      intro hcontra
      exact hq (by rw [hcontra])
    unfold cgocopy_registry_add cgocopy_lookup_struct_info
    conv_lhs => unfold lookupLoop
    simp only [hinfo, hname, if_neg hs]

/-- Witness for C10: after registering a `User` descriptor on top of a
registry holding `SimplePerson`, looking up `SimplePerson` is unchanged. -/
theorem register_preserves_other_lookups_witness :
    ((cgocopy_struct_registry_node.mk (some userInfo)).info = some userInfo ∧
      userInfo.name = some "User" ∧
      (some "SimplePerson" : Option String) ≠ some "User") ∧
    cgocopy_lookup_struct_info (some "SimplePerson")
        (cgocopy_registry_add (some (cgocopy_struct_registry_node.mk (some userInfo)))
          [cgocopy_struct_registry_node.mk (some simplePersonInfo)]) =
      cgocopy_lookup_struct_info (some "SimplePerson")
        [cgocopy_struct_registry_node.mk (some simplePersonInfo)] :=
  ⟨⟨rfl, rfl, by decide⟩,
    register_preserves_other_lookups _ _ userInfo "User" (some "SimplePerson")
      rfl rfl (by decide)⟩

/-- Rounding up to a positive alignment never moves an offset backwards. -/
theorem le_alignUp (x : Nat) {a : Nat} (ha : 1 ≤ a) : x ≤ alignUp x a := by
  unfold alignUp
  rw [Nat.mul_comm]
  have h1 := Nat.div_add_mod (x + a - 1) a
  have h2 : (x + a - 1) % a < a := Nat.mod_lt _ ha
  omega

/-- The layout end is never before the start offset. -/
theorem le_layoutEnd (fs : List CField) (h : ∀ f ∈ fs, 1 ≤ f.align) :
    ∀ off, off ≤ layoutEnd off fs := by
  induction fs with
  | nil => intro off; exact Nat.le_refl off
  | cons f fs ih =>
    intro off
    have hf : 1 ≤ f.align := h f (List.mem_cons_self _ _)
    have hrest : ∀ g ∈ fs, 1 ≤ g.align := fun g hg => h g (List.mem_cons_of_mem _ hg)
    simp only [layoutEnd]
    calc off ≤ alignUp off f.align := le_alignUp off hf
      _ ≤ alignUp off f.align + f.size := Nat.le_add_right _ _
      _ ≤ layoutEnd (alignUp off f.align + f.size) fs := ih hrest _

/-- Every field of the layout ends at or before the layout end. -/
theorem layout_field_end_le (fs : List CField) (h : ∀ f ∈ fs, 1 ≤ f.align) :
    ∀ (off i : Nat), i < fs.length →
      (layoutOffsets off fs).getD i 0 + (fs.getD i ⟨1, 0⟩).size ≤ layoutEnd off fs := by
  induction fs with
  | nil => intro off i hi; simp at hi
  | cons f fs ih =>
    intro off i hi
    have hrest : ∀ g ∈ fs, 1 ≤ g.align := fun g hg => h g (List.mem_cons_of_mem _ hg)
    simp only [layoutOffsets, layoutEnd]
    cases i with
    | zero =>
      simp only [List.getD_cons_zero]
      exact le_layoutEnd fs hrest _
    | succ i =>
      simp only [List.getD_cons_succ]
      exact ih hrest _ i (by simpa using hi)

/-- Every offset assigned by the layout is at or after the start offset. -/
theorem layoutOffsets_base_le (fs : List CField) (h : ∀ f ∈ fs, 1 ≤ f.align) :
    ∀ off x, x ∈ layoutOffsets off fs → off ≤ x := by
  induction fs with
  | nil => intro off x hx; simp [layoutOffsets] at hx
  | cons f fs ih =>
    intro off x hx
    have hf : 1 ≤ f.align := h f (List.mem_cons_self _ _)
    have hrest : ∀ g ∈ fs, 1 ≤ g.align := fun g hg => h g (List.mem_cons_of_mem _ hg)
    simp only [layoutOffsets, List.mem_cons] at hx
    rcases hx with rfl | hx
    · exact le_alignUp off hf
    · exact le_trans (le_alignUp off hf)
        (le_trans (Nat.le_add_right _ f.size) (ih hrest _ x hx))

/-- The layout assigns exactly one offset per field. -/
theorem layoutOffsets_length (fs : List CField) :
    ∀ off, (layoutOffsets off fs).length = fs.length := by
  induction fs with
  | nil => intro off; rfl
  | cons f fs ih => intro off; simp only [layoutOffsets, List.length_cons, ih]

/-- Earlier fields end at or before the offsets of later fields. -/
theorem layout_no_overlap (fs : List CField) (h : ∀ f ∈ fs, 1 ≤ f.align) :
    ∀ off i j, i < j → j < fs.length →
      (layoutOffsets off fs).getD i 0 + (fs.getD i ⟨1, 0⟩).size ≤
        (layoutOffsets off fs).getD j 0 := by
  induction fs with
  | nil => intro off i j hij hj; simp at hj
  | cons f fs ih =>
    intro off i j hij hj
    have hrest : ∀ g ∈ fs, 1 ≤ g.align := fun g hg => h g (List.mem_cons_of_mem _ hg)
    simp only [layoutOffsets]
    cases i with
    | zero =>
      cases j with
      | zero => omega
      | succ j =>
        simp only [List.getD_cons_zero, List.getD_cons_succ]
        have hjlen : j < fs.length := by simpa using hj
        have hjlen2 : j < (layoutOffsets (alignUp off f.align + f.size) fs).length := by
          rw [layoutOffsets_length]; exact hjlen
        rw [List.getD_eq_getElem _ _ hjlen2]
        exact layoutOffsets_base_le fs hrest _ _ (List.getElem_mem hjlen2)
    | succ i =>
      cases j with
      | zero => omega
      | succ j =>
        simp only [List.getD_cons_succ]
        exact ih hrest _ i j (by omega) (by simpa using hj)

/-- The struct alignment is positive. -/
theorem one_le_maxAlign (fs : List CField) : 1 ≤ maxAlign fs := by
  induction fs with
  | nil => exact Nat.le_refl 1
  | cons f fs ih =>
    simp only [maxAlign]
    exact le_trans ih (Nat.le_max_right f.align (maxAlign fs))

/-- C2: every descriptor the registration macros build from a compiler
layout (every field list with positive alignments) satisfies the struct
invariant: each field ends inside the struct size, fields in (offset-sorted)
declaration order do not overlap, and offsets are non-decreasing. -/
theorem macro_descriptor_invariant (fs : List CField)
    (h : ∀ f ∈ fs, 1 ≤ f.align) : descriptorInvariant fs := by
  have hmax : 1 ≤ maxAlign fs := one_le_maxAlign fs
  have hover : ∀ i j, i < j → j < fs.length →
      fieldOffset fs i + fieldSize fs i ≤ fieldOffset fs j := by
    intro i j hij hj
    exact layout_no_overlap fs h 0 i j hij hj
  refine ⟨?_, hover, ?_⟩
  · intro i hi
    unfold fieldOffset fieldSize cStructSize
    calc (layoutOffsets 0 fs).getD i 0 + (fs.getD i ⟨1, 0⟩).size
        ≤ layoutEnd 0 fs := layout_field_end_le fs h 0 i hi
      _ ≤ alignUp (layoutEnd 0 fs) (maxAlign fs) := le_alignUp _ hmax
  · intro i j hij hj
    rcases Nat.eq_or_lt_of_le hij with rfl | hlt
    · exact Nat.le_refl _
    · exact le_trans (Nat.le_add_right _ _) (hover i j hlt hj)

/-- Witness for C2: the `Student` test struct's LP64 layout (`int; char*;
int[5]; float[3]`) has positive alignments and satisfies the invariant. -/
theorem macro_descriptor_invariant_witness :
    (∀ f ∈ studentCFields, 1 ≤ f.align) ∧ descriptorInvariant studentCFields :=
  ⟨by decide, macro_descriptor_invariant studentCFields (by decide)⟩

/-- C6: the probe's union trick (`test.i = 0x01020304; test.c[0]`) reads
`0x04` as the first stored byte exactly on a little-endian platform and
`0x01` on a big-endian one, and `is_little_endian` is 1 exactly in the
first case. -/
theorem endianness_detection (le : Bool) :
    endianTestFirstByte le = (if le then 0x04 else 0x01) ∧
    endianFlag le = (if le then 1 else 0) ∧
    (endianFlag le = 1 ↔ endianTestFirstByte le = 0x04) := by
  cases le <;> exact ⟨rfl, rfl, by decide⟩

/-- C7: `calculateAlignment` returns 1 when the current offset equals the
previous end, and otherwise the gap `current_offset - prev_end`, for
in-range `size_t` arguments with the previous end not past the offset. -/
theorem calculateAlignment_gap (prev_end current_offset : Nat)
    (hp : prev_end < 2 ^ 64) (hc : current_offset < 2 ^ 64)
    (hle : prev_end ≤ current_offset) :
    (current_offset = prev_end → calculateAlignment prev_end current_offset = 1) ∧
    (current_offset ≠ prev_end →
      calculateAlignment prev_end current_offset = current_offset - prev_end) := by
  constructor
  · intro heq
    unfold calculateAlignment
    rw [if_pos heq]
  · intro hne
    unfold calculateAlignment sizetSub
    rw [if_neg hne, Nat.mod_eq_of_lt hp]
    have h2 : current_offset + (2 ^ 64 - prev_end) =
        (current_offset - prev_end) + 2 ^ 64 := by omega
    rw [h2, Nat.add_mod_right]
    exact Nat.mod_eq_of_lt (by omega)

/-- Witness for C7: with `prev_end = 1` and `current_offset = 4` the helper
reports the gap 3. -/
theorem calculateAlignment_gap_witness :
    ((1 : Nat) < 2 ^ 64 ∧ (4 : Nat) < 2 ^ 64 ∧ (1 : Nat) ≤ 4) ∧
    calculateAlignment 1 4 = 3 :=
  ⟨⟨by norm_num, by norm_num, by norm_num⟩,
    (calculateAlignment_gap 1 4 (by norm_num) (by norm_num) (by norm_num)).2
      (by norm_num)⟩

/-- C8: an array field of 5 elements declared through the array-field
macros gets `kind = CGOCOPY_FIELD_ARRAY_KIND` / `is_array = 1`, an element
count of 5, and a size of 5 times the element size (in both the
`cgocopy_metadata.h` and the `cgocopy_macros.h` macro families). -/
theorem array_field_macro_five_elements (offset : Nat) (fieldName elemType : String)
    (elemSize : Nat) (h : 0 < elemSize) :
    (CGOCOPY_FIELD_ARRAY offset elemType elemSize 5).kind =
        cgocopy_field_kind.array_kind ∧
    (CGOCOPY_FIELD_ARRAY offset elemType elemSize 5).elem_count = 5 ∧
    (CGOCOPY_FIELD_ARRAY offset elemType elemSize 5).size = 5 * elemSize ∧
    (CGOCOPY_ARRAY_FIELD fieldName offset elemType elemSize 5).is_array = 1 ∧
    (CGOCOPY_ARRAY_FIELD fieldName offset elemType elemSize 5).array_len = 5 ∧
    (CGOCOPY_ARRAY_FIELD fieldName offset elemType elemSize 5).size = 5 * elemSize := by
  refine ⟨rfl, rfl, rfl, rfl, ?_, rfl⟩
  show 5 * elemSize / elemSize = 5
  exact Nat.mul_div_cancel 5 h

/-- Witness for C8: `Student.grades` (`int grades[5]`, 4-byte `int` at
offset 16) is reported as an array of 5 elements of total size 20. -/
theorem array_field_macro_five_elements_witness :
    (0 : Nat) < 4 ∧
    ((CGOCOPY_FIELD_ARRAY 16 "int" 4 5).kind = cgocopy_field_kind.array_kind ∧
      (CGOCOPY_FIELD_ARRAY 16 "int" 4 5).elem_count = 5 ∧
      (CGOCOPY_FIELD_ARRAY 16 "int" 4 5).size = 5 * 4 ∧
      (CGOCOPY_ARRAY_FIELD "grades" 16 "int" 4 5).is_array = 1 ∧
      (CGOCOPY_ARRAY_FIELD "grades" 16 "int" 4 5).array_len = 5 ∧
      (CGOCOPY_ARRAY_FIELD "grades" 16 "int" 4 5).size = 5 * 4) :=
  ⟨by decide, array_field_macro_five_elements 16 "grades" "int" 4 (by decide)⟩

/-- C9: the architecture probe is total (a Lean function), leaves the
registry state untouched (so every lookup after the call agrees with the
lookup before), and returns the same snapshot on any two calls on the same
build/platform regardless of the registry state. -/
theorem arch_probe_pure_and_deterministic (p : CPlatform)
    (reg reg2 : List cgocopy_struct_registry_node) :
    (getArchitectureInfo p reg).2 = reg ∧
    (getArchitectureInfo p reg).1 = (getArchitectureInfo p reg2).1 ∧
    (∀ name, cgocopy_lookup_struct_info name (getArchitectureInfo p reg).2 =
      cgocopy_lookup_struct_info name reg) :=
  ⟨rfl, rfl, fun _ => rfl⟩

end Cgocopy
